import Mathlib

/-!
Verification of the description-generation core of `dbt_yaml_generator`
(`utils/description_generator.py`).

The Python functions `_analyze_sample_data`, `_clean_column_name`,
`generate_column_description` and `generate_table_description` are shallowly
embedded below.  Python runtime values reaching the analyzer are modelled by
`PyVal`; machine floats and `Decimal`s are idealized as exact rationals, and
each carries the string produced by Python's `str()` (that rendering lives in
the float/Decimal libraries, outside this repository).  The spacy NLP model is
external to the repository as well, so the entity extractor is a parameter
`nlp : String → List String` returning the entity labels of a text in document
order.  Operations that can raise in Python (the `most_common(1)[0]` indexing)
are embedded in `Except String`.

Regular expressions in the source are anchored substring tests and are
embedded as list-level prefix/suffix/infix tests on the characters; `^`/`$`
are modelled as start/end of string.  Python's `set` iteration order is
unspecified; it is modelled deterministically as first-seen order, and no
theorem below depends on that order beyond cardinality and membership.
-/

set_option maxRecDepth 8000

namespace DbtYamlGen

/-- A Python runtime value as seen by `_analyze_sample_data`.
`pyfloat`/`pydec` carry the exact numeric value (idealized to `Rat`) together
with their `str()` rendering; `pydec` carries `Option Rat` because `float()`
of a `Decimal` may raise (the payload records the coercion outcome, `none`
when it raises). -/
inductive PyVal where
  | pynone
  | pyint (n : Int)
  | pyfloat (q : Rat) (s : String)
  | pydec (coe : Option Rat) (s : String)
  | pystr (s : String)
  | pybool (b : Bool)
deriving Repr, DecidableEq

/-- Python `type(item).__name__`. (`bool` is its own type name, so booleans
are not numeric for the analyzer, matching CPython.) -/
def pyTypeName : PyVal → String
  | .pynone => "NoneType"
  | .pyint _ => "int"
  | .pyfloat _ _ => "float"
  | .pydec _ _ => "Decimal"
  | .pystr _ => "str"
  | .pybool _ => "bool"

/-- Python `item is None`. -/
def pyIsNone : PyVal → Bool
  | .pynone => true
  | _ => false

/-- Python `str(item)`. -/
def pyStr : PyVal → String
  | .pynone => "None"
  | .pyint n => toString n
  | .pyfloat _ s => s
  | .pydec _ s => s
  | .pystr s => s
  | .pybool b => if b then "True" else "False"

/-- The `float(item)` coercion attempted by the analyzer for items whose type
name is `int`, `float` or `Decimal`; `none` both for non-numeric items (no
coercion attempted) and for a `Decimal` whose coercion raises (the exception
is caught and the item skipped by the source). -/
def numCoerce : PyVal → Option Rat
  | .pyint n => some (n : Rat)
  | .pyfloat q _ => some q
  | .pydec c _ => c
  | _ => none

/-- Fuel-driven worker for `dedupFS` (structural recursion so that concrete
inputs evaluate definitionally). -/
def dedupFSGo {α : Type} [DecidableEq α] : Nat → List α → List α
  | 0, _ => []
  | _ + 1, [] => []
  | fuel + 1, x :: xs => x :: dedupFSGo fuel (xs.filter (fun y => y ≠ x))

/-- First-seen-order deduplication; embeds the key order of a Python
`Counter`/`dict` built by iterating a list (and is the deterministic model
used for `set(...)` iteration order). -/
def dedupFS {α : Type} [DecidableEq α] (l : List α) : List α :=
  dedupFSGo l.length l

/-- Stable insertion (after all entries with a count at least as large) used
to model Python's stable descending sort by count. -/
def insortDesc {α : Type} (x : α × Nat) : List (α × Nat) → List (α × Nat)
  | [] => [x]
  | y :: ys => if x.2 ≤ y.2 then y :: insortDesc x ys else x :: y :: ys

/-- Stable sort by descending count: processing keys in first-insertion order
and inserting each after its equals reproduces exactly Python's stable
`sorted(items, key=count, reverse=True)`. -/
def sortCountDesc {α : Type} (l : List (α × Nat)) : List (α × Nat) :=
  l.foldl (fun acc x => insortDesc x acc) []

/-- Python `Counter(l).most_common(n)`: pairs `(key, count)` in first-insertion
key order, stably sorted by descending count, truncated to `n`. -/
def mostCommon {α : Type} [DecidableEq α] (l : List α) (n : Nat) : List (α × Nat) :=
  (sortCountDesc ((dedupFS l).map (fun x => (x, l.count x)))).take n

/-- The `analysis['stats']` dictionary when non-empty. -/
structure Stats where
  min : Rat
  max : Rat
  avg : Rat
deriving Repr, DecidableEq

/-- The dictionary returned by `_analyze_sample_data`. `stats = none` embeds
the empty dict `{}`; `common_values = none` embeds `None`. -/
structure Analysis where
  type : Option String
  common_values : Option (List (String × Nat))
  patterns : List String
  entity_types : List (String × Nat)
  stats : Option Stats
deriving Repr, DecidableEq

/-- The initial `analysis` dictionary of `_analyze_sample_data`. -/
def baseAnalysis : Analysis :=
  { type := none, common_values := none, patterns := [], entity_types := [],
    stats := none }

/-- The non-`None` items of the sample (every loop/comprehension in the
analyzer guards with `item is not None`). -/
def nonNullOf (data : List PyVal) : List PyVal :=
  data.filter (fun v => !(pyIsNone v))

/-- `[type(item).__name__ for item in data if item is not None]`. -/
def typeNamesOf (data : List PyVal) : List String :=
  (nonNullOf data).map pyTypeName

/-- The set `types` accumulated by the first loop, in first-seen order. -/
def typesSetOf (data : List PyVal) : List String :=
  dedupFS (typeNamesOf data)

/-- The `numbers` list: successful `float(item)` coercions of the
numerically-typed non-null items, in sample order. -/
def numbersOf (data : List PyVal) : List Rat :=
  (nonNullOf data).filterMap numCoerce

/-- Python `min` over a list (the `[]` case is unreachable under the source's
`if numbers:` guard). -/
def listMin : List Rat → Rat
  | [] => 0
  | x :: xs => xs.foldl min x

/-- Python `max` over a list. -/
def listMax : List Rat → Rat
  | [] => 0
  | x :: xs => xs.foldl max x

/-- Exact rational addition written on numerator/denominator (equal to `a + b`;
spelled via `mkRat` so that concrete inputs evaluate definitionally). -/
def ratAdd (a b : Rat) : Rat :=
  mkRat (a.num * (b.den : Int) + b.num * (a.den : Int)) (a.den * b.den)

/-- `sum(numbers) / len(numbers)`: the division is performed on
numerator/denominator (the divisor is the positive length). -/
def avgOf (ns : List Rat) : Rat :=
  let s := ns.foldl ratAdd 0
  mkRat s.num (s.den * ns.length)

/-- The `analysis['stats']` computation: `{min, max, avg}` iff `numbers` is
non-empty. -/
def statsOf (data : List PyVal) : Option Stats :=
  let ns := numbersOf data
  if ns.isEmpty then none
  else some { min := listMin ns, max := listMax ns, avg := avgOf ns }

/-- The `analysis['type']` selection: the unique type name when all items
share one, else the most common one (`most_common(1)[0][0]`, an indexing that
would raise `IndexError` on an empty counter — embedded as `Except.error`). -/
def dominantType (data : List PyVal) : Except String (Option String) :=
  if (typesSetOf data).length == 1 then Except.ok (typesSetOf data).head?
  else if 1 < (typesSetOf data).length then
    match mostCommon (typeNamesOf data) 1 with
    | [] => Except.error "IndexError"
    | p :: _ => Except.ok (some p.1)
  else Except.ok none

/-- The `analysis['common_values']` computation in the text branch:
`Counter(strings).most_common(5)`, stored only when non-empty. -/
def commonValuesOf (data : List PyVal) : Option (List (String × Nat)) :=
  let cvl := mostCommon ((nonNullOf data).map pyStr) 5
  if cvl.isEmpty then none else some cvl

/-- `sample_text = " ".join([str(item) for item in data if item is not None])`. -/
def sampleTextOf (data : List PyVal) : String :=
  String.intercalate " " ((nonNullOf data).map pyStr)

/-- The `analysis['entity_types']` computation in the text branch: entity
labels of the first 10000 characters of the sample text (when non-empty),
counted and truncated to the top 3. -/
def entityTypesOf (nlp : String → List String) (data : List PyVal) :
    List (String × Nat) :=
  if 0 < (sampleTextOf data).length then
    let ents := nlp ((sampleTextOf data).take 10000)
    if ents.isEmpty then [] else mostCommon ents 3
  else []

/-- `_analyze_sample_data(self, data)`.  `nlp` is the injected spacy model,
returning the entity labels (`ent.label_`) of a text in document order.
The common-value and entity extraction run exactly when the dominant type is
`str`/`string`, as in the source's `if analysis['type'] in ('str','string')`
block. -/
def _analyze_sample_data (nlp : String → List String) (data : List PyVal) :
    Except String Analysis :=
  if data.isEmpty then Except.ok baseAnalysis
  else
    match dominantType data with
    | Except.error e => Except.error e
    | Except.ok ty =>
      if ty == some "str" || ty == some "string" then
        Except.ok { type := ty, common_values := commonValuesOf data,
                    patterns := [], entity_types := entityTypesOf nlp data,
                    stats := statsOf data }
      else
        Except.ok { type := ty, common_values := none, patterns := [],
                    entity_types := [], stats := statsOf data }

/-- Python `pat in s` (substring containment). -/
def strContains (s pat : String) : Bool :=
  decide (pat.toList <:+: s.toList)

/-- Python `s.startswith(pat)` / an `^pat` regex alternative. -/
def strStarts (s pat : String) : Bool :=
  decide (pat.toList <+: s.toList)

/-- Python `s.endswith(pat)` / a `pat$` regex alternative. -/
def strEnds (s pat : String) : Bool :=
  decide (pat.toList <:+ s.toList)

/-- The ordered whole-word abbreviation expansions of `_clean_column_name`. -/
def substPairs : List (String × String) :=
  [("adt", "audit"), ("anb", "account number"), ("sk", "surrogate key"),
   ("pk", "primary key"), ("fk", "foreign key"), ("id", "identifier"),
   ("scd", "slowly changing dimension"), ("dob", "date of birth"),
   ("ssn", "social security number"), ("num", "number"), ("amt", "amount"),
   ("qty", "quantity"), ("addr", "address"), ("tel", "telephone")]

/-- One `re.sub(r'\bw\b', repl, s)` pass.  After the underscore→space pass the
text is space-separated lower-case tokens, where a `\b`-delimited whole word
is exactly a token, so the substitution is token replacement. -/
def replaceWord (w repl s : String) : String :=
  String.intercalate " " ((s.splitOn " ").map (fun t => if t == w then repl else t))

/-- `_clean_column_name(self, column_name)`: underscores to spaces, lower-case,
the ordered abbreviation expansions, then capitalize the first letter. -/
def _clean_column_name (column_name : String) : String :=
  let name := (column_name.replace "_" " ").toLower
  let name := substPairs.foldl (fun acc p => replaceWord p.1 p.2 acc) name
  if name.isEmpty then name else name.capitalize

/-- `re.search(r'id$|^id|_id$', column_name.lower())` — the identifier rule
guard of `generate_column_description`. -/
def idRule (column_name : String) : Bool :=
  let l := column_name.toLower
  strEnds l "id" || strStarts l "id" || strEnds l "_id"

/-- `'date' in lower or re.search(r'_dt$|_date$', lower)` — the date rule. -/
def dateRule (column_name : String) : Bool :=
  let l := column_name.toLower
  strContains l "date" || strEnds l "_dt" || strEnds l "_date"

/-- `'amount' in lower or re.search(r'_amt$|_amount$', lower)` — the amount
rule. -/
def amountRule (column_name : String) : Bool :=
  let l := column_name.toLower
  strContains l "amount" || strEnds l "_amt" || strEnds l "_amount"

/-- `'count' in lower or 'qty' in lower or 'quantity' in lower` — the
count/quantity rule. -/
def countRule (column_name : String) : Bool :=
  let l := column_name.toLower
  strContains l "count" || strContains l "qty" || strContains l "quantity"

/-- `re.search(r'is_|_flag$|_flg$', column_name.lower())` — the boolean-flag
rule.  Note the `is_` alternative is unanchored: it matches anywhere. -/
def flagRule (column_name : String) : Bool :=
  let l := column_name.toLower
  strContains l "is_" || strEnds l "_flag" || strEnds l "_flg"

/-- Round to the nearest integer, ties to even — the rounding of `%.2f` once
floats are idealized as exact rationals.  The fractional part of `q` is
`(q.num - floor * den) / den`, so comparing it with `1/2` is comparing
`2 * (q.num - floor * den)` with `den` (spelled on integers so that concrete
inputs evaluate definitionally). -/
def roundHalfEven (q : Rat) : Int :=
  let n := q.floor
  let twiceFrac := 2 * (q.num - n * (q.den : Int))
  if twiceFrac < (q.den : Int) then n
  else if (q.den : Int) < twiceFrac then n + 1
  else if n % 2 == 0 then n else n + 1

/-- The two digits after the decimal point, zero padded (`m < 100`). -/
def twoFracDigits (m : Nat) : String :=
  String.mk [Nat.digitChar (m / 10 % 10), Nat.digitChar (m % 10)]

/-- Python `f"{x:.2f}"` on the idealized rational value: the value rounded to
two decimal places (half to even), rendered with exactly two fractional
digits.  (CPython formats the binary double; on values exactly representable
the two agree.  The sign is that of the rounded value, so a negative value
rounding to zero prints `0.00` rather than CPython's `-0.00`.) -/
def formatTwoDec (q : Rat) : String :=
  let c := roundHalfEven (mkRat (q.num * 100) q.den)
  let sign := if c < 0 then "-" else ""
  let m := c.natAbs
  sign ++ toString (m / 100) ++ "." ++ twoFracDigits (m % 100)

/-- The pure body of `generate_column_description` once the sample analysis
is available: the ordered `if`/`elif` cascade over the column name, the
exact-match special cases, and the declared-type fallback. -/
def columnDescription (column_name data_type : String) (analysis : Analysis) :
    String :=
  let clean_name := _clean_column_name column_name
  let l := column_name.toLower
  if idRule column_name then
    if strStarts l "pk_" || strStarts l "primary_" then
      "Primary identifier for " ++ clean_name
    else if strStarts l "fk_" || strStarts l "foreign_" then
      "Foreign key reference to " ++ clean_name
    else
      "Identifier for " ++ clean_name
  else if dateRule column_name then
    if strContains l "create" || strContains l "insert" then
      "Date when the record was created"
    else if strContains l "update" || strContains l "modify" then
      "Date when the record was last updated"
    else if strContains l "valid_from" then
      "Date from which this record is valid"
    else if strContains l "valid_to" then
      "Date until which this record is valid"
    else if strContains l "birth" then
      "Date of birth"
    else
      "Date associated with " ++ clean_name
  else if amountRule column_name then
    let d := "Monetary amount for " ++ clean_name
    match analysis.stats with
    | some st =>
      let mn := formatTwoDec st.min
      let mx := formatTwoDec st.max
      d ++ " (ranges from " ++ mn ++ " to " ++ mx ++ ")"
    | none => d
  else if countRule column_name then
    "Count or quantity of " ++ clean_name
  else if flagRule column_name then
    let d := "Flag indicating " ++ clean_name
    match analysis.common_values with
    | some cv =>
      if cv.isEmpty then d
      else
        let vals := String.intercalate ", " (cv.map (fun v => v.1))
        d ++ " (possible values: " ++ vals ++ ")"
    | none => d
  else if l == "adt_load_date" then
    "Audit load date used for record identification across the data pipeline"
  else if l == "adt_file_source" then
    "Audit file source used for record identification across the data pipeline"
  else if l == "adt_hash_key" then
    "Hash key used for record identification across the data pipeline"
  else if l == "dbt_scd_id" then
    "SCD type 2 identifier, used for tracking different versions of a each record"
  else if l == "dbt_updated_at" then
    "SCD type 2 updated timestamp, indicating when the record was last modified"
  else if l == "dbt_valid_from" then
    "SCD type 2 validity start timestamp, indicating since when the record was valid"
  else if l == "dbt_valid_to" then
    "SCD type 2 validity end timestamp, indicating since when the record was valid"
  else if l == "record_sk" then
    "Unique key identifier for each record"
  else if data_type != "" then
    let type_name := ((data_type.splitOn "(").headD "").toLower
    if strContains type_name "varchar" || strContains type_name "char" ||
        strContains type_name "string" || strContains type_name "text" then
      let d := "Text field containing " ++ clean_name
      match analysis.common_values with
      | some cv =>
        if !cv.isEmpty && cv.length ≤ 3 then
          let vals := String.intercalate ", " (cv.map (fun v => v.1))
          d ++ " (e.g., " ++ vals ++ ")"
        else d
      | none => d
    else if strContains type_name "int" || strContains type_name "number" ||
        strContains type_name "decimal" || strContains type_name "float" then
      "Numeric value representing " ++ clean_name
    else if strContains type_name "date" || strContains type_name "time" then
      "Date/time value for " ++ clean_name
    else if strContains type_name "bool" then
      "Boolean flag indicating " ++ clean_name
    else clean_name
  else clean_name

/-- `generate_column_description(self, column_name, data_type, sample_data)`:
analyze the sample, then run the naming-rule cascade. -/
def generate_column_description (nlp : String → List String)
    (column_name data_type : String) (sample_data : List PyVal) :
    Except String String :=
  match _analyze_sample_data nlp sample_data with
  | Except.error e => Except.error e
  | Except.ok analysis => Except.ok (columnDescription column_name data_type analysis)

/-- The mutable scan state of the column loop in
`generate_table_description`. -/
structure TableScan where
  has_id : Bool := false
  has_name : Bool := false
  has_date : Bool := false
  has_amount : Bool := false
  has_status : Bool := false
  important_columns : List String := []
deriving Repr, DecidableEq

/-- `re.search(r'id$|^id|_id$|key$|^key|_key$', col_name)` — the identifier
check of the table scan. -/
def tableIdKeyPattern (l : String) : Bool :=
  strEnds l "id" || strStarts l "id" || strEnds l "_id" ||
  strEnds l "key" || strStarts l "key" || strEnds l "_key"

/-- One iteration of the column loop of `generate_table_description`.  Only
the identifier and date branches exclude names containing `dbt_`/`adt_`; the
name, amount and status branches do not. -/
def scanColumn (st : TableScan) (name : String) : TableScan :=
  let c := name.toLower
  if tableIdKeyPattern c && !strContains c "dbt_" && !strContains c "adt_" then
    let st := { st with has_id := true }
    if c != "id" then
      let ref_entity := (c.replace "_id" "").replace "id_" ""
      if ref_entity != "" && 2 < ref_entity.length then
        { st with important_columns := st.important_columns ++ [ref_entity] }
      else st
    else st
  else if strContains c "name" then
    let st := { st with has_name := true }
    let entity := (c.replace "_name" "").replace "name_" ""
    if entity != "" && 2 < entity.length then
      { st with important_columns := st.important_columns ++ [entity] }
    else st
  else if strContains c "date" && !strContains c "dbt_" && !strContains c "adt_" then
    let st := { st with has_date := true }
    if c != "date" then
      let date_type := (c.replace "_date" "").replace "date_" ""
      if date_type != "" && 2 < date_type.length then
        { st with important_columns := st.important_columns ++ [date_type] }
      else st
    else st
  else if strContains c "amount" || strContains c "_amt" then
    let st := { st with has_amount := true }
    let amount_type :=
      (((c.replace "_amount" "").replace "amount_" "").replace "_amt" "").replace "amt_" ""
    if amount_type != "" && 2 < amount_type.length then
      { st with important_columns := st.important_columns ++ [amount_type] }
    else st
  else if strContains c "status" || strContains c "state" then
    { st with has_status := true }
  else st

/-- The whole column loop. -/
def scanAll (columns : List String) : TableScan :=
  columns.foldl scanColumn {}

/-- `entities = list(set([c for c in important_columns if c]))`, with `set`
iteration modelled as first-seen order. -/
def entitiesOf (scan : TableScan) : List String :=
  dedupFS (scan.important_columns.filter (fun c => !(c == "")))

/-- `unique_entities = list(set([clean(e) for e in entities]))`. -/
def uniqueEntitiesOf (scan : TableScan) : List String :=
  dedupFS ((entitiesOf scan).map _clean_column_name)

/-- The base sentence chosen by `generate_table_description` before the
details clause is appended. -/
def tableBase (clean_name : String) (scan : TableScan) : String :=
  if scan.important_columns.isEmpty then
    "Contains information related to " ++ clean_name
  else if (entitiesOf scan).isEmpty then
    "Contains information related to " ++ clean_name
  else if (uniqueEntitiesOf scan).length ≤ 3 then
    "Contains information about " ++ String.intercalate ", " (uniqueEntitiesOf scan)
  else
    "Contains various information related to " ++ clean_name

/-- The `details` clause appended by `generate_table_description`. -/
def tableDetails (scan : TableScan) : String :=
  let details :=
    (if scan.has_id then ["identifiers"] else []) ++
    (if scan.has_name then ["names"] else []) ++
    (if scan.has_date then ["dates"] else []) ++
    (if scan.has_amount then ["amounts"] else []) ++
    (if scan.has_status then ["status information"] else [])
  if details.isEmpty then ""
  else if details.length ≤ 3 then
    " including " ++ String.intercalate ", " details
  else " including various attributes and metrics"

/-- `generate_table_description(self, table_name, columns)`; the columns are
embedded by their `'name'` entry, the only field the source reads. -/
def generate_table_description (table_name : String) (columns : List String) :
    String :=
  let clean_name := _clean_column_name table_name
  let scan := scanAll columns
  tableBase clean_name scan ++ tableDetails scan

/-- Forget the recorded `float()` coercion outcome of every `Decimal` item,
leaving type names, `str()` forms and nullness unchanged.  Two samples
related by this map differ only in which items fail numeric coercion. -/
def eraseCoerce : PyVal → PyVal
  | .pydec _ s => .pydec none s
  | v => v

/-! ### Concrete inputs used by witnesses and counterexamples -/

/-- An entity extractor finding no entities. -/
def nlp0 : String → List String := fun _ => []

/-- An entity extractor tagging one geopolitical entity, as the spacy model
does on place names. -/
def nlpGPE : String → List String := fun _ => ["GPE"]

/-- A mixed sample: dominant type `str`, but one numeric item. -/
def dataMix : List PyVal := [.pystr "Paris", .pystr "London", .pyint 3]

/-- The profile of `dataMix` under `nlpGPE`. -/
def aMix : Analysis :=
  { type := some "str",
    common_values := some [("Paris", 1), ("London", 1), ("3", 1)],
    patterns := [], entity_types := [("GPE", 1)],
    stats := some { min := 3, max := 3, avg := 3 } }

/-- Four identifier columns with four distinct referenced entities. -/
def cols4 : List String :=
  ["customer_id", "product_id", "supplier_id", "invoice_id"]

/-- A homogeneous integer sample. -/
def dataInts : List PyVal := [.pyint 3, .pyint 1, .pyint 2]

/-- The profile of `dataInts`. -/
def aInts : Analysis :=
  { type := some "int", common_values := none, patterns := [],
    entity_types := [], stats := some { min := 1, max := 3, avg := 2 } }

/-- A flag-like sample of repeated strings. -/
def dataFlag : List PyVal := [.pystr "Y", .pystr "Y", .pystr "N"]

/-- The profile of `dataFlag` under `nlp0`. -/
def aFlag : Analysis :=
  { type := some "str", common_values := some [("Y", 2), ("N", 1)],
    patterns := [], entity_types := [], stats := none }

/-- The amount-rule sample `[10.0, 99.999]`. -/
def dataAmt : List PyVal :=
  [.pyfloat 10 "10.0", .pyfloat (mkRat 99999 1000) "99.999"]

/-- The stats of `dataAmt`. -/
def stAmt : Stats :=
  { min := 10, max := mkRat 99999 1000, avg := mkRat 109999 2000 }

/-- The profile of `dataAmt`. -/
def aAmt : Analysis :=
  { type := some "float", common_values := none, patterns := [],
    entity_types := [], stats := some stAmt }

/-! ### Helper lemmas -/

theorem insortDesc_length {α : Type} (x : α × Nat) (l : List (α × Nat)) :
    (insortDesc x l).length = l.length + 1 := by
  induction l with
  | nil => rfl
  | cons y ys ih =>
    simp only [insortDesc]
    split
    · simp [ih]
    · simp

theorem sortCountDesc_length {α : Type} (l : List (α × Nat)) :
    (sortCountDesc l).length = l.length := by
  suffices h : ∀ acc : List (α × Nat),
      (l.foldl (fun acc x => insortDesc x acc) acc).length = acc.length + l.length by
    simpa using h []
  induction l with
  | nil => intro acc; simp
  | cons x xs ih =>
    intro acc
    simp only [List.foldl_cons, ih, insortDesc_length, List.length_cons]
    omega

theorem dedupFS_ne_nil {α : Type} [DecidableEq α] {l : List α} (h : l ≠ []) :
    dedupFS l ≠ [] := by
  cases l with
  | nil => exact absurd rfl h
  | cons x xs => simp [dedupFS, dedupFSGo]

theorem mostCommon_ne_nil {α : Type} [DecidableEq α] {l : List α} {n : Nat}
    (hl : l ≠ []) (hn : 0 < n) : mostCommon l n ≠ [] := by
  unfold mostCommon
  have h1 : dedupFS l ≠ [] := dedupFS_ne_nil hl
  intro h
  have h2 := congrArg List.length h
  simp only [List.length_take, sortCountDesc_length, List.length_map,
    List.length_nil] at h2
  have h3 : (dedupFS l).length ≠ 0 := by
    intro h0
    exact h1 (List.length_eq_zero.mp h0)
  omega

theorem dominantType_ok (data : List PyVal) :
    ∃ t, dominantType data = Except.ok t := by
  unfold dominantType
  split
  · exact ⟨_, rfl⟩
  · split
    · split
      · rename_i hlen _ heq
        have hne : typeNamesOf data ≠ [] := by
          intro h0
          rw [show typesSetOf data = dedupFS (typeNamesOf data) from rfl, h0] at hlen
          simp [dedupFS, dedupFSGo] at hlen
        exact absurd heq (mostCommon_ne_nil (n := 1) hne (by omega))
      · exact ⟨_, rfl⟩
    · exact ⟨_, rfl⟩

theorem analyze_ok (nlp : String → List String) (data : List PyVal) :
    ∃ a, _analyze_sample_data nlp data = Except.ok a := by
  unfold _analyze_sample_data
  split
  · exact ⟨_, rfl⟩
  · rcases dominantType_ok data with ⟨t, ht⟩
    rw [ht]
    split
    · rename_i heq
      exact absurd heq (by simp)
    · split
      · exact ⟨_, rfl⟩
      · exact ⟨_, rfl⟩

theorem gen_column_eq (nlp : String → List String)
    (column_name data_type : String) (data : List PyVal) (a : Analysis)
    (ha : _analyze_sample_data nlp data = Except.ok a) :
    generate_column_description nlp column_name data_type data =
      Except.ok (columnDescription column_name data_type a) := by
  unfold generate_column_description
  rw [ha]

theorem nonNullOf_idem (data : List PyVal) :
    nonNullOf (nonNullOf data) = nonNullOf data := by
  simp [nonNullOf, List.filter_filter]

theorem typeNamesOf_nonNull (data : List PyVal) :
    typeNamesOf (nonNullOf data) = typeNamesOf data := by
  unfold typeNamesOf
  rw [nonNullOf_idem]

theorem dominantType_nonNull (data : List PyVal) :
    dominantType (nonNullOf data) = dominantType data := by
  unfold dominantType typesSetOf
  rw [typeNamesOf_nonNull]

theorem statsOf_nonNull (data : List PyVal) :
    statsOf (nonNullOf data) = statsOf data := by
  unfold statsOf numbersOf
  rw [nonNullOf_idem]

theorem commonValuesOf_nonNull (data : List PyVal) :
    commonValuesOf (nonNullOf data) = commonValuesOf data := by
  unfold commonValuesOf
  rw [nonNullOf_idem]

theorem sampleTextOf_nonNull (data : List PyVal) :
    sampleTextOf (nonNullOf data) = sampleTextOf data := by
  unfold sampleTextOf
  rw [nonNullOf_idem]

theorem entityTypesOf_nonNull (nlp : String → List String) (data : List PyVal) :
    entityTypesOf nlp (nonNullOf data) = entityTypesOf nlp data := by
  unfold entityTypesOf
  rw [sampleTextOf_nonNull]

theorem analyze_of_nonNull_nil (nlp : String → List String) (data : List PyVal)
    (h : nonNullOf data = []) :
    _analyze_sample_data nlp data = Except.ok baseAnalysis := by
  unfold _analyze_sample_data
  split
  · rfl
  · have ht : dominantType data = Except.ok none := by
      unfold dominantType typesSetOf typeNamesOf
      rw [h]
      rfl
    have hs : statsOf data = none := by
      unfold statsOf numbersOf
      rw [h]
      rfl
    rw [ht]
    simp [hs, baseAnalysis]

/-! ### Claims -/

/-- C1: the claim says the exact-match pipeline-metadata dictionary
short-circuits before any naming-pattern rule, so that `"dbt_scd_id"` with
declared type `"NUMBER"` and any sample yields the fixed SCD-identifier
sentence.  In the source the exact-match `elif` arms come after the pattern
rules, and `"dbt_scd_id"` ends in `id`, so the identifier rule fires instead
and the fixed sentence is unreachable: for every extractor and every sample
the result is `"Identifier for Dbt slowly changing dimension identifier"`. -/
theorem C1_dbt_scd_id_hits_identifier_rule (nlp : String → List String)
    (data : List PyVal) :
    generate_column_description nlp "dbt_scd_id" "NUMBER" data =
      Except.ok "Identifier for Dbt slowly changing dimension identifier" := by
  rcases analyze_ok nlp data with ⟨a, ha⟩
  rw [gen_column_eq nlp "dbt_scd_id" "NUMBER" data a ha]
  with_unfolding_all rfl

/-- C8: for every entity extractor, sample list (down to empty), column name,
declared type and table, the analyzer and both synthesizers return a value:
no execution path reaches the embedded failure case. -/
theorem C8_totality (nlp : String → List String) (data : List PyVal)
    (column_name data_type table_name : String) (columns : List String) :
    (∃ a, _analyze_sample_data nlp data = Except.ok a) ∧
    (∃ s, generate_column_description nlp column_name data_type data = Except.ok s) ∧
    (∃ s, generate_table_description table_name columns = s) := by
  refine ⟨analyze_ok nlp data, ?_, ⟨_, rfl⟩⟩
  rcases analyze_ok nlp data with ⟨a, ha⟩
  exact ⟨_, gen_column_eq nlp column_name data_type data a ha⟩

/-- C10: the analyzer is invariant under removing `None` items: every loop and
comprehension in `_analyze_sample_data` filters `item is not None`, so a
sample containing nulls yields exactly the profile of the null-free sample,
and never an error. -/
theorem C10_null_items_ignored (nlp : String → List String) (data : List PyVal) :
    _analyze_sample_data nlp data = _analyze_sample_data nlp (nonNullOf data) ∧
    ∃ a, _analyze_sample_data nlp data = Except.ok a := by
  refine ⟨?_, analyze_ok nlp data⟩
  by_cases h : nonNullOf data = []
  · rw [analyze_of_nonNull_nil nlp data h, h]
    rfl
  · have hd : data ≠ [] := by
      intro hd
      rw [hd] at h
      exact h rfl
    have h1 : ¬(data.isEmpty = true) := by simp [List.isEmpty_iff, hd]
    have h2 : ¬((nonNullOf data).isEmpty = true) := by simp [List.isEmpty_iff, h]
    unfold _analyze_sample_data
    rw [if_neg h1, if_neg h2, dominantType_nonNull]
    cases hdt : dominantType data with
    | error e => rfl
    | ok ty =>
      by_cases hty : (ty == some "str" || ty == some "string") = true
      · simp [hty, commonValuesOf_nonNull, entityTypesOf_nonNull, statsOf_nonNull]
      · simp [hty, statsOf_nonNull]

theorem numCoerce_isSome_not_none {v : PyVal} (h : (numCoerce v).isSome = true) :
    (!(pyIsNone v)) = true := by
  cases v <;> simp_all [numCoerce, pyIsNone]

theorem numbersOf_ne_nil_iff (data : List PyVal) :
    numbersOf data ≠ [] ↔ ∃ v ∈ data, (numCoerce v).isSome = true := by
  unfold numbersOf
  constructor
  · intro h
    rcases List.exists_mem_of_ne_nil _ h with ⟨b, hb⟩
    rcases List.mem_filterMap.mp hb with ⟨v, hv, hcv⟩
    exact ⟨v, (List.mem_filter.mp hv).1, by simp [hcv]⟩
  · intro ⟨v, hmem, hsome⟩ hnil
    have hv : v ∈ nonNullOf data :=
      List.mem_filter.mpr ⟨hmem, numCoerce_isSome_not_none hsome⟩
    have := List.filterMap_eq_nil_iff.mp hnil v hv
    rw [this] at hsome
    simp at hsome

theorem statsOf_isSome_iff (data : List PyVal) :
    (statsOf data).isSome = true ↔ numbersOf data ≠ [] := by
  unfold statsOf
  by_cases h : (numbersOf data).isEmpty = true
  · simp [h, List.isEmpty_iff.mp h]
  · simp only [h, if_neg, Option.isSome_some, true_iff]
    simp [List.isEmpty_iff] at h
    simp [h]

theorem analyze_stats (nlp : String → List String) (data : List PyVal)
    (a : Analysis) (h : _analyze_sample_data nlp data = Except.ok a) :
    a.stats = statsOf data := by
  unfold _analyze_sample_data at h
  split at h
  · rename_i hde
    cases h
    have hd : data = [] := List.isEmpty_iff.mp hde
    subst hd
    rfl
  · split at h
    · cases h
    · split at h <;> cases h <;> rfl

/-- C2: the claim says the numeric range and the entity-category list are
never both populated.  That fails for mixed samples: the amended statement is
that both can only be populated together when the sample contains a
coercible numeric item while the dominant type is text — in particular for
type-homogeneous samples the two remain mutually exclusive. -/
theorem C2_amended_mixed_only (nlp : String → List String) (data : List PyVal)
    (a : Analysis) (h : _analyze_sample_data nlp data = Except.ok a)
    (h1 : a.stats.isSome = true) (h2 : a.entity_types ≠ []) :
    (∃ v ∈ data, (numCoerce v).isSome = true) ∧
    (a.type = some "str" ∨ a.type = some "string") := by
  have hstats : a.stats = statsOf data := analyze_stats nlp data a h
  have hnum : ∃ v ∈ data, (numCoerce v).isSome = true := by
    rw [hstats] at h1
    exact (numbersOf_ne_nil_iff data).mp ((statsOf_isSome_iff data).mp h1)
  refine ⟨hnum, ?_⟩
  unfold _analyze_sample_data at h
  split at h
  · cases h
    simp [baseAnalysis] at h2
  · split at h
    · cases h
    · split at h
      · rename_i ty hty
        cases h
        simp only [beq_iff_eq, Bool.or_eq_true] at hty
        exact hty
      · cases h
        simp at h2

/-- C2 counterexample: the mixed sample `["Paris", "London", 3]` under an
extractor that tags a place entity yields a profile with both the numeric
range and a non-empty entity-category list. -/
theorem C2_counterexample :
    _analyze_sample_data nlpGPE dataMix = Except.ok aMix ∧
    aMix.stats.isSome = true ∧ aMix.entity_types ≠ [] := by
  refine ⟨by with_unfolding_all rfl, rfl, by simp [aMix]⟩

/-- C2 witness: the amended theorem applied to the concrete mixed sample. -/
theorem C2_amended_witness :
    (∃ v ∈ dataMix, (numCoerce v).isSome = true) ∧
    (aMix.type = some "str" ∨ aMix.type = some "string") :=
  C2_amended_mixed_only nlpGPE dataMix aMix (by with_unfolding_all rfl) rfl
    (by simp [aMix])

theorem foldl_min_mem (x : Rat) (xs : List Rat) : xs.foldl min x ∈ x :: xs := by
  induction xs generalizing x with
  | nil => simp
  | cons y ys ih =>
    have h := ih (min x y)
    simp only [List.foldl_cons]
    rcases List.mem_cons.mp h with h1 | h1
    · rw [h1]
      rcases min_choice x y with hc | hc <;> rw [hc] <;> simp
    · simp only [List.mem_cons]
      exact Or.inr (Or.inr h1)

theorem foldl_min_le (x : Rat) (xs : List Rat) :
    ∀ y ∈ x :: xs, xs.foldl min x ≤ y := by
  induction xs generalizing x with
  | nil =>
    intro y hy
    simp at hy
    simp [hy]
  | cons z zs ih =>
    intro y hy
    simp only [List.foldl_cons]
    have hbase := ih (min x z) (min x z) (List.mem_cons_self _ _)
    rcases List.mem_cons.mp hy with h1 | h1
    · subst h1
      exact le_trans hbase (min_le_left _ _)
    · rcases List.mem_cons.mp h1 with h2 | h2
      · subst h2
        exact le_trans hbase (min_le_right _ _)
      · exact ih (min x z) y (List.mem_cons_of_mem _ h2)

theorem foldl_max_mem (x : Rat) (xs : List Rat) : xs.foldl max x ∈ x :: xs := by
  induction xs generalizing x with
  | nil => simp
  | cons y ys ih =>
    have h := ih (max x y)
    simp only [List.foldl_cons]
    rcases List.mem_cons.mp h with h1 | h1
    · rw [h1]
      rcases max_choice x y with hc | hc <;> rw [hc] <;> simp
    · simp only [List.mem_cons]
      exact Or.inr (Or.inr h1)

theorem foldl_max_ge (x : Rat) (xs : List Rat) :
    ∀ y ∈ x :: xs, y ≤ xs.foldl max x := by
  induction xs generalizing x with
  | nil =>
    intro y hy
    simp at hy
    simp [hy]
  | cons z zs ih =>
    intro y hy
    simp only [List.foldl_cons]
    have hbase := ih (max x z) (max x z) (List.mem_cons_self _ _)
    rcases List.mem_cons.mp hy with h1 | h1
    · subst h1
      exact le_trans (le_max_left _ _) hbase
    · rcases List.mem_cons.mp h1 with h2 | h2
      · subst h2
        exact le_trans (le_max_right _ _) hbase
      · exact ih (max x z) y (List.mem_cons_of_mem _ h2)

theorem statsOf_minmax (data : List PyVal) (st : Stats)
    (h : statsOf data = some st) :
    (st.min ∈ numbersOf data ∧ ∀ x ∈ numbersOf data, st.min ≤ x) ∧
    (st.max ∈ numbersOf data ∧ ∀ x ∈ numbersOf data, x ≤ st.max) := by
  unfold statsOf at h
  rcases hn : numbersOf data with _ | ⟨x, xs⟩
  · rw [hn] at h
    simp at h
  · rw [hn] at h
    rw [if_neg (by simp)] at h
    cases h
    try rw [hn]
    exact ⟨⟨foldl_min_mem x xs, foldl_min_le x xs⟩,
           ⟨foldl_max_mem x xs, foldl_max_ge x xs⟩⟩

theorem eraseCoerce_typeName (v : PyVal) :
    pyTypeName (eraseCoerce v) = pyTypeName v := by
  cases v <;> rfl

theorem eraseCoerce_pyStr (v : PyVal) : pyStr (eraseCoerce v) = pyStr v := by
  cases v <;> rfl

theorem eraseCoerce_isNone (v : PyVal) :
    pyIsNone (eraseCoerce v) = pyIsNone v := by
  cases v <;> rfl

theorem nonNullOf_map_erase (data : List PyVal) :
    nonNullOf (data.map eraseCoerce) = (nonNullOf data).map eraseCoerce := by
  unfold nonNullOf
  rw [List.filter_map]
  exact congrArg (List.map eraseCoerce)
    (List.filter_congr (fun v _ => by simp [Function.comp, eraseCoerce_isNone]))

theorem typeNamesOf_erase (data : List PyVal) :
    typeNamesOf (data.map eraseCoerce) = typeNamesOf data := by
  unfold typeNamesOf
  rw [nonNullOf_map_erase, List.map_map]
  congr 1
  funext v
  simp [Function.comp, eraseCoerce_typeName]

theorem strs_erase (data : List PyVal) :
    (nonNullOf (data.map eraseCoerce)).map pyStr = (nonNullOf data).map pyStr := by
  rw [nonNullOf_map_erase, List.map_map]
  congr 1
  funext v
  simp [Function.comp, eraseCoerce_pyStr]

theorem dominantType_erase (data : List PyVal) :
    dominantType (data.map eraseCoerce) = dominantType data := by
  unfold dominantType typesSetOf
  rw [typeNamesOf_erase]

theorem commonValuesOf_erase (data : List PyVal) :
    commonValuesOf (data.map eraseCoerce) = commonValuesOf data := by
  unfold commonValuesOf
  rw [strs_erase]

theorem sampleTextOf_erase (data : List PyVal) :
    sampleTextOf (data.map eraseCoerce) = sampleTextOf data := by
  unfold sampleTextOf
  rw [strs_erase]

theorem entityTypesOf_erase (nlp : String → List String) (data : List PyVal) :
    entityTypesOf nlp (data.map eraseCoerce) = entityTypesOf nlp data := by
  unfold entityTypesOf
  rw [sampleTextOf_erase]

/-- C7: the profile's numeric range is present iff some sample item is
numerically typed and coercible; the recorded min/max are the true minimum
and maximum of the coercible subset (`numbersOf`); and coercion failures do
not leak into the type, frequent-value or entity fields (replacing every
Decimal's coercion outcome by a failure leaves those fields unchanged). -/
theorem C7_numeric_range (nlp : String → List String) (data : List PyVal)
    (a : Analysis) (h : _analyze_sample_data nlp data = Except.ok a) :
    (a.stats.isSome = true ↔ ∃ v ∈ data, (numCoerce v).isSome = true) ∧
    (∀ st, a.stats = some st →
      (st.min ∈ numbersOf data ∧ ∀ x ∈ numbersOf data, st.min ≤ x) ∧
      (st.max ∈ numbersOf data ∧ ∀ x ∈ numbersOf data, x ≤ st.max)) ∧
    (∀ a', _analyze_sample_data nlp (data.map eraseCoerce) = Except.ok a' →
      a'.type = a.type ∧ a'.common_values = a.common_values ∧
      a'.entity_types = a.entity_types) := by
  have hstats : a.stats = statsOf data := analyze_stats nlp data a h
  refine ⟨?_, ?_, ?_⟩
  · rw [hstats, statsOf_isSome_iff]
    exact numbersOf_ne_nil_iff data
  · intro st hst
    rw [hstats] at hst
    exact statsOf_minmax data st hst
  · intro a' h'
    unfold _analyze_sample_data at h h'
    by_cases hde : data = []
    · subst hde
      cases h
      cases h'
      exact ⟨rfl, rfl, rfl⟩
    · rw [if_neg (by simp [List.isEmpty_iff, hde])] at h
      rw [if_neg (by simp [List.isEmpty_iff, hde])] at h'
      split at h
      · cases h
      · rename_i ty hdt
        split at h'
        · rename_i e heq
          rw [dominantType_erase, hdt] at heq
          cases heq
        · rename_i ty' heq
          rw [dominantType_erase, hdt] at heq
          injection heq with heq2
          subst heq2
          by_cases hty : (ty == some "str" || ty == some "string") = true
          · rw [if_pos hty] at h h'
            cases h
            cases h'
            rw [commonValuesOf_erase, entityTypesOf_erase]
            exact ⟨rfl, rfl, rfl⟩
          · rw [if_neg hty] at h h'
            cases h
            cases h'
            exact ⟨rfl, rfl, rfl⟩

/-- C7 witness: the theorem applied to the homogeneous integer sample
`[3, 1, 2]`, whose profile records the true range `[1, 3]`. -/
theorem C7_numeric_range_witness :
    ((aInts.stats.isSome = true) ↔ ∃ v ∈ dataInts, (numCoerce v).isSome = true) ∧
    (∀ st, aInts.stats = some st →
      (st.min ∈ numbersOf dataInts ∧ ∀ x ∈ numbersOf dataInts, st.min ≤ x) ∧
      (st.max ∈ numbersOf dataInts ∧ ∀ x ∈ numbersOf dataInts, x ≤ st.max)) ∧
    (∀ a', _analyze_sample_data nlp0 (dataInts.map eraseCoerce) = Except.ok a' →
      a'.type = aInts.type ∧ a'.common_values = aInts.common_values ∧
      a'.entity_types = aInts.entity_types) :=
  C7_numeric_range nlp0 dataInts aInts (by with_unfolding_all rfl)

theorem strEnds_iff {s p : String} : strEnds s p = true ↔ p.toList <:+ s.toList := by
  simp [strEnds]

theorem strStarts_iff {s p : String} : strStarts s p = true ↔ p.toList <+: s.toList := by
  simp [strStarts]

/-- C4: the claim says the identifier rule fires exactly on `id` as a
whole underscore-delimited segment, excluding names ending in e.g. `valid`
or `paid` and including interior `_id_` segments.  The source regex
`id$|^id|_id$` tests raw prefixes/suffixes: the rule fires exactly when the
lower-cased name starts or ends with the two letters `id` (the `_id$`
alternative being subsumed by `id$`), with no segment structure. -/
theorem C4_amended_idRule_is_raw_affix (name : String) :
    idRule name = true ↔
      (strEnds name.toLower "id" = true ∨ strStarts name.toLower "id" = true) := by
  unfold idRule
  constructor
  · intro h
    rcases Bool.or_eq_true_iff.mp h with h1 | h1
    · rcases Bool.or_eq_true_iff.mp h1 with h2 | h2
      · exact Or.inl h2
      · exact Or.inr h2
    · refine Or.inl (strEnds_iff.mpr ?_)
      exact List.IsSuffix.trans (List.suffix_cons '_' ['i', 'd']) (strEnds_iff.mp h1)
  · intro h
    rcases h with h1 | h1
    · exact Bool.or_eq_true_iff.mpr (Or.inl (Bool.or_eq_true_iff.mpr (Or.inl h1)))
    · exact Bool.or_eq_true_iff.mpr (Or.inl (Bool.or_eq_true_iff.mpr (Or.inr h1)))

/-- C4 counterexample: `"is_valid"` ends in the letters `id`, so the
identifier rule fires on it (the claim says it must not); and
`"customer_id_number"` has an interior `_id_` segment yet the identifier rule
does not fire — with empty declared type it falls through every rule to the
cleaned name. -/
theorem C4_counterexample :
    generate_column_description nlp0 "is_valid" "BOOLEAN" [] =
      Except.ok "Identifier for Is valid" ∧
    generate_column_description nlp0 "customer_id_number" "" [] =
      Except.ok "Customer identifier number" := by
  exact ⟨by with_unfolding_all rfl, by with_unfolding_all rfl⟩

/-- C5: the claim says the boolean-flag rule fires exactly when the name
starts with `is_` or ends with `_flag`/`_flg`, and that an interior `is_`
does not trigger it.  The source regex `is_|_flag$|_flg$` leaves the `is_`
alternative unanchored, so the rule fires whenever `is_` occurs anywhere in
the lower-cased name (amended); the appended frequent-value clause is as
claimed: when no earlier rule fires, the flag rule fires and the profile has
frequent values, the description is "Flag indicating {clean}" followed by
" (possible values: v1, v2, …)" over the ranked values. -/
theorem C5_amended_flag_unanchored (nlp : String → List String)
    (name data_type : String) (data : List PyVal) (a : Analysis)
    (hA : _analyze_sample_data nlp data = Except.ok a)
    (h1 : idRule name = false) (h2 : dateRule name = false)
    (h3 : amountRule name = false) (h4 : countRule name = false)
    (h5 : strContains name.toLower "is_" = true ∨
          strEnds name.toLower "_flag" = true ∨ strEnds name.toLower "_flg" = true) :
    generate_column_description nlp name data_type data =
      Except.ok
        (match a.common_values with
         | some cv =>
           if cv.isEmpty then "Flag indicating " ++ _clean_column_name name
           else
             "Flag indicating " ++ _clean_column_name name ++
               " (possible values: " ++
               String.intercalate ", " (cv.map (fun v => v.1)) ++ ")"
         | none => "Flag indicating " ++ _clean_column_name name) := by
  rw [gen_column_eq nlp name data_type data a hA]
  have h5' : flagRule name = true := by
    unfold flagRule
    rcases h5 with h | h | h <;> simp [h]
  unfold columnDescription
  rw [if_neg (by simp [h1]), if_neg (by simp [h2]), if_neg (by simp [h3]),
    if_neg (by simp [h4]), if_pos h5']

/-- C5 counterexample: `"status_is_ok"` only contains `is_` in its interior,
yet the flag rule fires on it; under the claim's reading it would fall
through to the cleaned name `"Status is ok"`. -/
theorem C5_counterexample :
    generate_column_description nlp0 "status_is_ok" "" [] =
      Except.ok "Flag indicating Status is ok" ∧
    generate_column_description nlp0 "status_is_ok" "" [] ≠
      Except.ok "Status is ok" := by
  constructor
  · with_unfolding_all rfl
  · intro hcontra
    have h1 : generate_column_description nlp0 "status_is_ok" "" [] =
        Except.ok "Flag indicating Status is ok" := by with_unfolding_all rfl
    rw [h1] at hcontra
    exact absurd (Except.ok.inj hcontra) (by decide)

/-- C5 witness: the amended theorem at `"status_is_ok"` with samples
`["Y", "Y", "N"]`, whose ranked frequent values are appended. -/
theorem C5_amended_witness :
    generate_column_description nlp0 "status_is_ok" "" dataFlag =
      Except.ok "Flag indicating Status is ok (possible values: Y, N)" :=
  (C5_amended_flag_unanchored nlp0 "status_is_ok" "" dataFlag aFlag
    (by with_unfolding_all rfl) (by with_unfolding_all rfl)
    (by with_unfolding_all rfl) (by with_unfolding_all rfl)
    (by with_unfolding_all rfl)
    (Or.inl (by with_unfolding_all rfl))).trans (by with_unfolding_all rfl)

/-- C6: the claim says metadata-marked columns (`dbt_`/`adt_`) are classified
into none of the five table-scan buckets and contribute no entity fragment.
In the source only the identifier and date branches test for `dbt_`/`adt_`
(amended): those two buckets are provably never set by such a column, while
the name, amount and status branches apply to it like to any column. -/
theorem C6_amended_exclusion_only_id_date (st : TableScan) (name : String)
    (h : strContains name.toLower "dbt_" = true ∨
         strContains name.toLower "adt_" = true) :
    (scanColumn st name).has_id = st.has_id ∧
    (scanColumn st name).has_date = st.has_date := by
  have hid : ¬((tableIdKeyPattern name.toLower && !strContains name.toLower "dbt_" &&
      !strContains name.toLower "adt_") = true) := by
    rcases h with h | h <;> simp [h]
  have hdt : ¬((strContains name.toLower "date" && !strContains name.toLower "dbt_" &&
      !strContains name.toLower "adt_") = true) := by
    rcases h with h | h <;> simp [h]
  simp only [scanColumn]
  rw [if_neg hid, if_neg hdt]
  split
  · split <;> exact ⟨rfl, rfl⟩
  · split
    · split <;> exact ⟨rfl, rfl⟩
    · split <;> exact ⟨rfl, rfl⟩

/-- C6 counterexample: the metadata column `"adt_source_name"` sets the
has-name bucket and contributes the entity fragment `"adt_source"`, so the
table description names the entity `"Audit source"` instead of staying
generic. -/
theorem C6_counterexample :
    generate_table_description "files" ["adt_source_name"] =
      "Contains information about Audit source including names" ∧
    generate_table_description "files" ["adt_source_name"] ≠
      "Contains information related to Files" := by
  constructor
  · with_unfolding_all rfl
  · intro h
    rw [(by with_unfolding_all rfl :
      generate_table_description "files" ["adt_source_name"] =
        "Contains information about Audit source including names")] at h
    exact absurd h (by decide)

/-- C6 witness: the amended theorem at the pipeline column
`"adt_load_date"`, which sets neither the identifier nor the date bucket. -/
theorem C6_amended_witness :
    (scanColumn {} "adt_load_date").has_id = TableScan.has_id {} ∧
    (scanColumn {} "adt_load_date").has_date = TableScan.has_date {} :=
  C6_amended_exclusion_only_id_date {} "adt_load_date"
    (Or.inr (by with_unfolding_all rfl))

/-- C3: the claim says that with more than 3 distinct referenced entities the
base sentence stays the generic "Contains information related to {table}".
The source instead overrides it with the distinct sentence "Contains various
information related to {table}" (amended); the entity enumeration is indeed
suppressed. -/
theorem C3_amended_various_sentence (table_name : String) (columns : List String)
    (h : 3 < (uniqueEntitiesOf (scanAll columns)).length) :
    generate_table_description table_name columns =
      ("Contains various information related to " ++ _clean_column_name table_name)
        ++ tableDetails (scanAll columns) := by
  simp only [generate_table_description]
  congr 1
  unfold tableBase
  have h1 : uniqueEntitiesOf (scanAll columns) ≠ [] := by
    intro hh
    rw [hh] at h
    simp at h
  have h2 : entitiesOf (scanAll columns) ≠ [] := by
    intro hh
    apply h1
    unfold uniqueEntitiesOf
    rw [hh]
    rfl
  have h3 : ¬((scanAll columns).important_columns.isEmpty = true) := by
    intro hh
    apply h2
    unfold entitiesOf
    rw [List.isEmpty_iff.mp hh]
    rfl
  rw [if_neg h3, if_neg (by simp [List.isEmpty_iff, h2]), if_neg (by omega)]

/-- C3 counterexample: four identifier columns give four distinct entities;
the output base sentence is the "various" one, not the claimed generic one. -/
theorem C3_counterexample :
    generate_table_description "orders" cols4 =
      "Contains various information related to Orders including identifiers" ∧
    generate_table_description "orders" cols4 ≠
      "Contains information related to Orders including identifiers" := by
  constructor
  · with_unfolding_all rfl
  · intro h
    rw [(by with_unfolding_all rfl : generate_table_description "orders" cols4 =
      "Contains various information related to Orders including identifiers")] at h
    exact absurd h (by decide)

/-- C3 witness: the amended theorem at the four-identifier table. -/
theorem C3_amended_witness :
    generate_table_description "orders" cols4 =
      "Contains various information related to Orders including identifiers" :=
  (C3_amended_various_sentence "orders" cols4 (by with_unfolding_all decide)).trans
    (by with_unfolding_all rfl)

theorem digitChar_isDigit {n : Nat} (h : n < 10) :
    (Nat.digitChar n).isDigit = true := by
  interval_cases n <;> decide

theorem formatTwoDec_shape (q : Rat) :
    ∃ p c1 c2, formatTwoDec q = p ++ "." ++ String.mk [c1, c2] ∧
      c1.isDigit = true ∧ c2.isDigit = true := by
  refine ⟨_, _, _, rfl, digitChar_isDigit ?_, digitChar_isDigit ?_⟩
  · exact Nat.mod_lt _ (by norm_num)
  · exact Nat.mod_lt _ (by norm_num)

/-- C9: when the amount rule fires (and no higher rule does) and the profile
carries a numeric range, the description appends exactly
" (ranges from X to Y)" with both bounds rendered by the two-decimal
formatter, whose output always has exactly two digits after its decimal
point.  On the spec's example range `{min: 10, max: 99.999}` the rendering is
"10.00" and "100.00" (see the witness); rounding is half-to-even on the exact
rational value. -/
theorem C9_amount_range_format (nlp : String → List String)
    (name data_type : String) (data : List PyVal) (a : Analysis) (st : Stats)
    (hA : _analyze_sample_data nlp data = Except.ok a)
    (h1 : idRule name = false) (h2 : dateRule name = false)
    (h3 : amountRule name = true) (hs : a.stats = some st) :
    generate_column_description nlp name data_type data =
      Except.ok ("Monetary amount for " ++ _clean_column_name name ++
        " (ranges from " ++ formatTwoDec st.min ++ " to " ++
        formatTwoDec st.max ++ ")") ∧
    (∃ p c1 c2, formatTwoDec st.min = p ++ "." ++ String.mk [c1, c2] ∧
      c1.isDigit = true ∧ c2.isDigit = true) ∧
    (∃ p c1 c2, formatTwoDec st.max = p ++ "." ++ String.mk [c1, c2] ∧
      c1.isDigit = true ∧ c2.isDigit = true) := by
  refine ⟨?_, formatTwoDec_shape st.min, formatTwoDec_shape st.max⟩
  rw [gen_column_eq nlp name data_type data a hA]
  unfold columnDescription
  rw [if_neg (by simp [h1]), if_neg (by simp [h2]), if_pos h3, hs]

/-- C9 witness: the theorem at `"total_amount"` over samples
`[10.0, 99.999]`: min renders as "10.00" and max as "100.00" (exactly two
decimal places; 99.999 rounds up). -/
theorem C9_amount_range_format_witness :
    generate_column_description nlp0 "total_amount" "NUMBER" dataAmt =
      Except.ok "Monetary amount for Total amount (ranges from 10.00 to 100.00)" :=
  ((C9_amount_range_format nlp0 "total_amount" "NUMBER" dataAmt aAmt stAmt
    (by with_unfolding_all rfl) (by with_unfolding_all rfl)
    (by with_unfolding_all rfl) (by with_unfolding_all rfl) rfl).1).trans
    (by with_unfolding_all rfl)

end DbtYamlGen
